import Mathlib

/-!
Shallow embedding of `src/backend/backend.py` (mathmex-pdf): the PDF math
derivation pipeline — source resolution (`resolve_pdf_path`, `download_pdf`),
page rasterization (`get_pdf_page_image`, `get_cached_page`), formula region
detection (`get_pdf_page_regions`), region indexing (`get_pdf_regions`),
region recognition (`get_pdf_latex`) and the bulk spoken-math endpoint
(`get_all_spoken_math`) — together with theorems checking the specification's
claims against it.

External collaborators (the filesystem, HTTP, pdf2image, the pix2text
detection and recognition models, the latex-to-speech transform) are modeled
as components of an environment record `Env`; the repository's own control
flow is translated function by function.  Python exceptions are modeled by
`Except Err`; numeric values (detector pixel coordinates, normalized bounding
boxes) are modeled as exact rationals.
-/

namespace Backend

/-- PDF byte strings, modeled opaquely: the backend never inspects the bytes
itself, only hands them to external collaborators (`Env.pages`,
`Env.raster`), so an abstract token suffices. -/
abbrev Bytes := Nat

/-- A decoded page image (a PIL `Image`): pixel dimensions plus opaque pixel
content.  `width`/`height` model `image.width`/`image.height`; the pair is
`image.size`.  `content` stands for the pixel buffer, so that detection can
depend on what is on the page. -/
structure RasterImage where
  width : Nat
  height : Nat
  content : Nat
  deriving DecidableEq

/-- One raw item of the detection model's output list
(`math_detector.detect(image)`), as discriminated by the source's shape check
`isinstance(result, dict) and 'box' in result and 'score' in result`:
`det p0 p1 p2 p3 score` models a dict with a `box` of four corner points and
a `score`; `malformed` models any item failing that check (a non-dict, or a
dict missing one of the keys).  The source reads only `box[0]` (`p0`) and
`box[2]` (`p2`). -/
inductive DetectItem where
  | det (p0 p1 p2 p3 : ℚ × ℚ) (score : ℚ)
  | malformed
  deriving DecidableEq

/-- A normalized bounding box, the source's 4-element list
`[x1, y1, x2, y2]` built at backend.py lines 205-210. -/
structure BBox4 where
  x1 : ℚ
  y1 : ℚ
  x2 : ℚ
  y2 : ℚ
  deriving DecidableEq

/-- The source's `PDFMathFormula` NamedTuple (`page`, `formula`, `bbox`). -/
structure PDFMathFormula where
  page : Nat
  formula : Option String
  bbox : BBox4
  deriving DecidableEq

/-- One element of `get_pdf_regions`' result: the enumerated dict
`{"bbox": f.bbox, "pagenum": f.page, "id": i}` (backend.py lines 236-238). -/
structure RegionOut where
  bbox : BBox4
  pagenum : Nat
  id : Nat
  deriving DecidableEq

/-- `get_pdf_latex`'s result dict `{"latex": latex}`. -/
structure LatexOut where
  latex : String
  deriving DecidableEq

/-- One element of `get_all_spoken_math`'s result list
`{"id": region_id, "latex": latex, "spoken_math": spoken_math}`. -/
structure SpokenOut where
  id : Nat
  latex : String
  spoken_math : String
  deriving DecidableEq

/-- The Python exceptions the embedded pipeline can raise.
`fetchFailed` models `ValueError("Failed to download PDF ...")` from
`download_pdf` (and `requests` transport failures); `pageOutOfRange` models
the `IndexError` raised by `images[0]` when `convert_from_bytes` returns an
empty list because the requested page is outside the document;
`invalidRegionId` models `ValueError(f"Invalid region ID: ...")` from
`get_pdf_latex`. -/
inductive Err where
  | fetchFailed
  | pageOutOfRange
  | invalidRegionId
  deriving DecidableEq

/-- The external world the backend calls into:
* `fileExists u` / `readFile u` model `os.path.exists(u)` and reading the
  file at `u` from disk;
* `httpGet u` models `requests.get(u)`: `some b` is a 200 response with body
  `b`, `none` a non-200 status or transport failure;
* `pages b` models `pdfinfo_from_bytes(b)['Pages']`;
* `raster b p` models page `p` of `convert_from_bytes(b, dpi=300)` (the DPI
  is a fixed constant in the source, so it is baked in);
* `detect img` models `math_detector.detect(img)`;
* `recognize img rect` models `p2t.recognize_formula(img.crop(rect))`:
  `none` models the model raising an exception;
* `speak latex` models `get_spoken_math_cached(latex)`, the stateless
  latex-to-spoken-text transform (out of the caching core's scope). -/
structure Env where
  fileExists : String → Bool
  readFile : String → Bytes
  httpGet : String → Option Bytes
  pages : Bytes → Nat
  raster : Bytes → Nat → RasterImage
  detect : RasterImage → List DetectItem
  recognize : RasterImage → Int × Int × Int × Int → Option String
  speak : String → String

/-! ## Source resolution (backend.py lines 421-454) -/

/-- Python `s.startswith(pre)`. -/
def pyStartswith (s pre : String) : Bool :=
  pre.data.isPrefixOf s.data

/-- `is_url` (backend.py lines 421-422). -/
def is_url (s : String) : Bool :=
  pyStartswith s "http://" || pyStartswith s "https://"

/-- Python `s.replace("local://", "")`: removes every non-overlapping
occurrence of `"local://"`, scanning left to right. -/
def stripLocal : List Char → List Char
  | 'l' :: 'o' :: 'c' :: 'a' :: 'l' :: ':' :: '/' :: '/' :: rest => stripLocal rest
  | c :: rest => c :: stripLocal rest
  | [] => []

/-- `str(UPLOAD_DIR / name)` with `UPLOAD_DIR = Path("/tmp/uploaded_pdfs")`:
pathlib's `/` keeps the right operand alone when it is absolute, otherwise
appends it to the base directory.  (pathlib additionally collapses duplicate
separators; that cosmetic normalization is not modeled — either way the
result begins with `'/'`.) -/
def uploadDirJoin (name : String) : String :=
  if pyStartswith name "/" then name else "/tmp/uploaded_pdfs/" ++ name

/-- `resolve_pdf_path` (backend.py lines 424-435). -/
def resolve_pdf_path (pdf_url : String) : String :=
  if pyStartswith pdf_url "local://" then
    uploadDirJoin (String.mk (stripLocal pdf_url.data) ++ ".pdf")
  else pdf_url

/-- `download_pdf` (backend.py lines 437-454), without its `lru_cache`
wrapper: the function is deterministic given the environment, so the cache
is semantically transparent (its single-flight behavior under concurrency is
a separate matter, see claim C1). -/
def download_pdf (env : Env) (pdf_url : String) : Except Err Bytes :=
  if env.fileExists pdf_url && !is_url pdf_url then
    .ok (env.readFile pdf_url)
  else
    match env.httpGet pdf_url with
    | some b => .ok b
    | none => .error Err.fetchFailed

/-! ## Page rasterization (backend.py lines 107-121) -/

/-- `convert_from_bytes(b, dpi=300, first_page=f, last_page=l)`, modeled from
pdf2image's page-range clamping: the library queries the page count, clamps
`first_page` up to 1 and `last_page` down to the page count, and returns the
empty list when the clamped range is empty. -/
def convertFromBytes (env : Env) (pdfBytes : Bytes) (firstPage lastPage : Nat) :
    List RasterImage :=
  let pageCount := env.pages pdfBytes
  let f := max 1 firstPage
  let l := min lastPage pageCount
  if l < f then [] else (List.range' f (l + 1 - f)).map (env.raster pdfBytes)

/-- `get_pdf_page_image` (backend.py lines 109-117).  `images[0]` on the
empty list raises an `IndexError`; the list is empty exactly when the
requested page is outside the document, which the spec's taxonomy names
`PageOutOfRange`. -/
def get_pdf_page_image (env : Env) (pdf_url : String) (page_num : Nat) :
    Except Err RasterImage :=
  match download_pdf env pdf_url with
  | .error e => .error e
  | .ok pdfBytes =>
      match convertFromBytes env pdfBytes page_num page_num with
      | [] => .error Err.pageOutOfRange
      | image :: _ => .ok image

/-- `get_cached_page` (backend.py lines 119-121): an `lru_cache` wrapper
around the deterministic `get_pdf_page_image`, hence semantically the same
function. -/
def get_cached_page (env : Env) (pdf_url : String) (page_num : Nat) :
    Except Err RasterImage :=
  get_pdf_page_image env pdf_url page_num

/-! ## Region detection (backend.py lines 127-212) -/

/-- `min_score` (backend.py line 129). -/
def min_score : ℚ := 0.75

/-- The normalized bbox built at backend.py lines 205-210:
`[box[0][0]/width, box[0][1]/height, box[2][0]/width, box[2][1]/height]`. -/
def normBBox (image : RasterImage) (p0 p2 : ℚ × ℚ) : BBox4 :=
  ⟨p0.1 / (image.width : ℚ), p0.2 / (image.height : ℚ),
   p2.1 / (image.width : ℚ), p2.2 / (image.height : ℚ)⟩

/-- The detection loop of `get_pdf_page_regions` (backend.py lines 199-212):
keep each well-shaped detection whose score meets `min_score`, normalize its
box, and skip everything else. -/
def pageFormulas (image : RasterImage) (results : List DetectItem) (page_num : Nat) :
    List PDFMathFormula :=
  results.filterMap fun r =>
    match r with
    | .det p0 _ p2 _ score =>
        if min_score ≤ score then some ⟨page_num, none, normBBox image p0 p2⟩
        else none
    | .malformed => none

/-- `get_pdf_page_regions` (backend.py lines 184-212), without its
`lru_cache` wrapper (that cache is modeled explicitly below for claim C9). -/
def get_pdf_page_regions (env : Env) (pdf_url : String) (page_num : Nat) :
    Except Err (List PDFMathFormula) :=
  let url := resolve_pdf_path pdf_url
  match download_pdf env url with
  | .error e => .error e
  | .ok pdfBytes =>
      match convertFromBytes env pdfBytes page_num page_num with
      | [] => .error Err.pageOutOfRange
      | image :: _ => .ok (pageFormulas image (env.detect image) page_num)

/-! ## Region index (backend.py lines 215-240) -/

/-- The page loop of `get_pdf_regions` (backend.py lines 230-233): process
pages `p, p+1, ..., p+k-1` in ascending order, extending the accumulated
formula list with each page's formulas; any page's exception propagates. -/
def pagesLoop (env : Env) (url : String) : Nat → Nat → Except Err (List PDFMathFormula)
  | _, 0 => .ok []
  | p, k + 1 =>
      match get_pdf_page_regions env url p with
      | .error e => .error e
      | .ok pageFs =>
          match pagesLoop env url (p + 1) k with
          | .error e => .error e
          | .ok rest => .ok (pageFs ++ rest)

/-- `get_pdf_regions` (backend.py lines 215-240): resolve the identifier,
query the page count once, walk pages 1..N, and enumerate the concatenated
formulas as `{"bbox", "pagenum", "id"}` dicts with 0-based running ids. -/
def get_pdf_regions (env : Env) (pdf_url : String) : Except Err (List RegionOut) :=
  let url := resolve_pdf_path pdf_url
  match download_pdf env url with
  | .error e => .error e
  | .ok pdfBytes =>
      match pagesLoop env url 1 (env.pages pdfBytes) with
      | .error e => .error e
      | .ok allFormulas =>
          .ok (allFormulas.enum.map fun p => ⟨p.2.bbox, p.2.page, p.1⟩)

/-! ## Region recognition (backend.py lines 268-310) -/

/-- Python `int(q)` on an exact value: truncation toward zero.  For a
rational `num/den` (with `den > 0`) this is `Int.tdiv num den`. -/
def pyInt (q : ℚ) : ℤ :=
  Int.tdiv q.num q.den

/-- The pixel crop rectangle of `get_pdf_latex` (backend.py lines 293-298):
each normalized coordinate times the matching image dimension
(`width, height = page_image.size`), truncated by `int(...)`. -/
def cropRect (page_image : RasterImage) (b : BBox4) : Int × Int × Int × Int :=
  (pyInt (b.x1 * (page_image.width : ℚ)), pyInt (b.y1 * (page_image.height : ℚ)),
   pyInt (b.x2 * (page_image.width : ℚ)), pyInt (b.y2 * (page_image.height : ℚ)))

/-- `get_pdf_latex` (backend.py lines 268-310), without its `lru_cache`
wrapper: rebuild the region index, validate the id, fetch the owning page's
cached image, crop by the pixel rectangle, and run recognition — returning
`{"latex": ""}` when the recognition model raises (lines 302-307). -/
def get_pdf_latex (env : Env) (pdf_url : String) (latex_id : ℤ) : Except Err LatexOut :=
  match get_pdf_regions env pdf_url with
  | .error e => .error e
  | .ok regions =>
      if h : latex_id < 0 ∨ (regions.length : ℤ) ≤ latex_id then
        .error Err.invalidRegionId
      else
        let r := regions.get ⟨latex_id.toNat, by omega⟩
        match get_cached_page env pdf_url r.pagenum with
        | .error e => .error e
        | .ok page_image =>
            .ok ⟨(env.recognize page_image (cropRect page_image r.bbox)).getD ""⟩

/-! ## Bulk spoken math (backend.py lines 578-611) -/

/-- `get_all_spoken_math` (backend.py lines 578-611): build the region index,
then for each region fetch its LaTeX — per-region exceptions are caught and
yield `{"id": i, "latex": "", "spoken_math": ""}` — and speak non-empty
LaTeX (`get_spoken_math_cached(latex) if latex else ""`). -/
def get_all_spoken_math (env : Env) (pdf_url : String) : Except Err (List SpokenOut) :=
  match get_pdf_regions env pdf_url with
  | .error e => .error e
  | .ok regions =>
      .ok (regions.map fun r =>
        match get_pdf_latex env pdf_url (r.id : ℤ) with
        | .ok ld =>
            ⟨r.id, ld.latex, if ld.latex = "" then "" else env.speak ld.latex⟩
        | .error _ => ⟨r.id, "", ""⟩)

/-! ## The per-page `lru_cache` of `get_pdf_page_regions` (backend.py line 184)

Claim C9 is about the stability of region ids across repeated `get_pdf_regions`
calls, which in the source go through `@lru_cache`-memoized
`get_pdf_page_regions`.  The cache is modeled explicitly as an association
list from the raw argument pair (the key `functools.lru_cache` uses) to the
memoized return value; `lru_cache` stores only results of calls that did not
raise.  Eviction (`maxsize=256`) is not modeled — the claim explicitly
assumes no intervening eviction. -/

/-- Cache state: `functools.lru_cache`'s memo table for
`get_pdf_page_regions`, keyed by the raw `(pdf_url, page_num)` arguments. -/
abbrev PageCache := List ((String × Nat) × List PDFMathFormula)

/-- Lookup in the memo table. -/
def cacheLookup : PageCache → String × Nat → Option (List PDFMathFormula)
  | [], _ => none
  | (k, v) :: rest, key => if k = key then some v else cacheLookup rest key

/-- A call through the `lru_cache` wrapper of `get_pdf_page_regions`: return
the memoized value on a hit; on a miss run the function, memoizing the
result unless it raised. -/
def get_pdf_page_regions_c (env : Env) (cache : PageCache) (pdf_url : String)
    (page_num : Nat) : Except Err (List PDFMathFormula) × PageCache :=
  match cacheLookup cache (pdf_url, page_num) with
  | some v => (.ok v, cache)
  | none =>
      match get_pdf_page_regions env pdf_url page_num with
      | .ok v => (.ok v, ((pdf_url, page_num), v) :: cache)
      | .error e => (.error e, cache)

/-- The page loop of `get_pdf_regions`, with the per-page cache threaded
through the memoized calls. -/
def pagesLoop_c (env : Env) (url : String) :
    Nat → Nat → PageCache → Except Err (List PDFMathFormula) × PageCache
  | _, 0, cache => (.ok [], cache)
  | p, k + 1, cache =>
      match get_pdf_page_regions_c env cache url p with
      | (.error e, cache1) => (.error e, cache1)
      | (.ok pageFs, cache1) =>
          match pagesLoop_c env url (p + 1) k cache1 with
          | (.error e, cache2) => (.error e, cache2)
          | (.ok rest, cache2) => (.ok (pageFs ++ rest), cache2)

/-- `get_pdf_regions` as actually executed: per-page results go through the
`lru_cache` of `get_pdf_page_regions`, whose state is threaded. -/
def get_pdf_regions_c (env : Env) (cache : PageCache) (pdf_url : String) :
    Except Err (List RegionOut) × PageCache :=
  let url := resolve_pdf_path pdf_url
  match download_pdf env url with
  | .error e => (.error e, cache)
  | .ok pdfBytes =>
      match pagesLoop_c env url 1 (env.pages pdfBytes) cache with
      | (.error e, cache1) => (.error e, cache1)
      | (.ok allFormulas, cache1) =>
          (.ok (allFormulas.enum.map fun p => ⟨p.2.bbox, p.2.page, p.1⟩), cache1)

/-- Cache coherence: every memoized entry is the value the memoized function
returns for that key.  This holds for every state `functools.lru_cache` can
reach, since entries are only written from return values. -/
def coherent (env : Env) (cache : PageCache) : Prop :=
  ∀ key v, cacheLookup cache key = some v →
    get_pdf_page_regions env key.1 key.2 = .ok v

/-! ## Concrete scenario environments -/

/-- Page image used by `envC2`: every page of the 3-page scenario document
rasterizes to a 100×100 image whose content is the page number. -/
def imgC2 (p : Nat) : RasterImage := ⟨100, 100, p⟩

/-- Scenario environment for claims C2/C3/C7/C8/C9: one remote document at
`"http://d"` with 3 pages; page 1 carries two detections with in-page boxes
and score 1, pages 2 and 3 carry none. -/
def envC2 : Env where
  fileExists := fun _ => false
  readFile := fun _ => 0
  httpGet := fun u => if u = "http://d" then some 0 else none
  pages := fun _ => 3
  raster := fun _ p => imgC2 p
  detect := fun img =>
    if img = imgC2 1 then
      [.det (10, 10) (20, 10) (20, 20) (10, 20) 1,
       .det (30, 30) (40, 30) (40, 40) (30, 40) 1]
    else []
  recognize := fun _ _ => some "x"
  speak := fun _ => "s"

/-- The region index of the `envC2` scenario document. -/
def rsC2 : List RegionOut :=
  [⟨⟨1/10, 1/10, 1/5, 1/5⟩, 1, 0⟩, ⟨⟨3/10, 3/10, 2/5, 2/5⟩, 1, 1⟩]

/-- Page image used by `envC6`: the single page of the 5-region scenario
document, 10×10 pixels. -/
def imgC6 : RasterImage := ⟨10, 10, 1⟩

/-- Scenario environment for claim C6: one remote document at `"http://d5"`
with a single page carrying five detections (regions 0..4, pixel boxes
`(k,0)-(k+1,5)`); the recognition model raises exactly on region 2's crop
rectangle (whose left edge is pixel column 2) and otherwise returns `"x"`. -/
def envC6 : Env where
  fileExists := fun _ => false
  readFile := fun _ => 0
  httpGet := fun u => if u = "http://d5" then some 0 else none
  pages := fun _ => 1
  raster := fun _ _ => imgC6
  detect := fun img =>
    if img = imgC6 then
      [.det (0, 0) (1, 0) (1, 5) (0, 5) 1,
       .det (1, 0) (2, 0) (2, 5) (1, 5) 1,
       .det (2, 0) (3, 0) (3, 5) (2, 5) 1,
       .det (3, 0) (4, 0) (4, 5) (3, 5) 1,
       .det (4, 0) (5, 0) (5, 5) (4, 5) 1]
    else []
  recognize := fun _ rect => if rect.1 = 2 then none else some "x"
  speak := fun _ => "s"

/-- Page image used by `envC8`. -/
def imgC8 : RasterImage := ⟨100, 100, 1⟩

/-- Counterexample environment for claim C8: a well-shaped, above-threshold
detection whose four corner points are all `(0, 0)` — the shape check at
backend.py line 203 accepts it, and normalization turns it into the
degenerate bbox `(0, 0, 0, 0)`. -/
def envC8 : Env where
  fileExists := fun _ => false
  readFile := fun _ => 0
  httpGet := fun u => if u = "http://z" then some 0 else none
  pages := fun _ => 1
  raster := fun _ _ => imgC8
  detect := fun img =>
    if img = imgC8 then [.det (0, 0) (0, 0) (0, 0) (0, 0) 1] else []
  recognize := fun _ _ => some "x"
  speak := fun _ => "s"

/-- Counterexample environment for claim C3: a locally-uploaded document,
reachable only on disk at its resolved path
`/tmp/uploaded_pdfs/abc.pdf` (no HTTP endpoint serves any URL, exactly the
situation of an upload).  Its single page carries one above-threshold
detection, so its region index is nonempty. -/
def envC3 : Env where
  fileExists := fun u => u == "/tmp/uploaded_pdfs/abc.pdf"
  readFile := fun _ => 0
  httpGet := fun _ => none
  pages := fun _ => 1
  raster := fun _ p => imgC2 p
  detect := fun img =>
    if img = imgC2 1 then [.det (10, 10) (20, 10) (20, 20) (10, 20) 1] else []
  recognize := fun _ _ => some "x"
  speak := fun _ => "s"

/-! ## Inversion and characterization lemmas -/

/-- Every formula produced by the detection loop carries the page number it
was detected on. -/
lemma pageFormulas_page (image : RasterImage) (results : List DetectItem)
    (n : Nat) : ∀ f ∈ pageFormulas image results n, f.page = n := by
  intro f hf
  simp only [pageFormulas, List.mem_filterMap] at hf
  obtain ⟨r, -, hr⟩ := hf
  cases r with
  | malformed => simp at hr
  | det p0 p1 p2 p3 score =>
      by_cases hs : min_score ≤ score
      · simp only [hs, if_pos] at hr
        cases hr
        rfl
      · simp [hs] at hr

/-- Every formula produced by the detection loop comes from a well-shaped
detection whose score meets the threshold, with the normalized box. -/
lemma pageFormulas_mem (image : RasterImage) (results : List DetectItem)
    (n : Nat) (f : PDFMathFormula) (hf : f ∈ pageFormulas image results n) :
    ∃ p0 p1 p2 p3 score, DetectItem.det p0 p1 p2 p3 score ∈ results ∧
      min_score ≤ score ∧ f = ⟨n, none, normBBox image p0 p2⟩ := by
  simp only [pageFormulas, List.mem_filterMap] at hf
  obtain ⟨r, hmem, hr⟩ := hf
  cases r with
  | malformed => simp at hr
  | det p0 p1 p2 p3 score =>
      by_cases hs : min_score ≤ score
      · simp only [hs, if_pos] at hr
        cases hr
        exact ⟨p0, p1, p2, p3, score, hmem, hs, rfl⟩
      · simp [hs] at hr

/-- If the requested page is inside the document, `convert_from_bytes`
returns exactly that page's raster image. -/
lemma convertFromBytes_singleton (env : Env) (b : Bytes) (n : Nat)
    (h1 : 1 ≤ n) (h2 : n ≤ env.pages b) :
    convertFromBytes env b n n = [env.raster b n] := by
  simp only [convertFromBytes]
  rw [Nat.max_eq_right h1, Nat.min_eq_left h2, if_neg (by omega)]
  have : n + 1 - n = 1 := by omega
  rw [this, List.range'_one, List.map_cons, List.map_nil]

/-- If the requested page is beyond the document's page count,
`convert_from_bytes` returns the empty list. -/
lemma convertFromBytes_nil (env : Env) (b : Bytes) (n : Nat)
    (h : env.pages b < n) : convertFromBytes env b n n = [] := by
  simp only [convertFromBytes]
  rw [Nat.max_eq_right (by omega), Nat.min_eq_right (by omega),
    if_pos (by omega)]

/-- Inversion for a successful `get_pdf_page_regions` call. -/
lemma get_pdf_page_regions_ok (env : Env) (pdf_url : String) (page_num : Nat)
    (fs : List PDFMathFormula)
    (h : get_pdf_page_regions env pdf_url page_num = .ok fs) :
    ∃ pdfBytes image rest,
      download_pdf env (resolve_pdf_path pdf_url) = .ok pdfBytes ∧
      convertFromBytes env pdfBytes page_num page_num = image :: rest ∧
      fs = pageFormulas image (env.detect image) page_num := by
  simp only [get_pdf_page_regions] at h
  cases hdl : download_pdf env (resolve_pdf_path pdf_url) with
  | error e => simp [hdl] at h
  | ok pdfBytes =>
      simp only [hdl] at h
      cases hcv : convertFromBytes env pdfBytes page_num page_num with
      | nil => simp [hcv] at h
      | cons image rest =>
          simp only [hcv, Except.ok.injEq] at h
          exact ⟨pdfBytes, image, rest, rfl, hcv, h.symm⟩

/-- Characterization of a successful run of the page loop of
`get_pdf_regions`: every page in the range was detected successfully, and
the result is the in-order concatenation of the per-page results. -/
lemma pagesLoop_ok (env : Env) (url : String) :
    ∀ (k p : Nat) (fs : List PDFMathFormula),
      pagesLoop env url p k = .ok fs →
      ∃ perPage : Nat → List PDFMathFormula,
        (∀ q, p ≤ q → q < p + k → get_pdf_page_regions env url q = .ok (perPage q)) ∧
        fs = ((List.range' p k).map perPage).flatten := by
  intro k
  induction k with
  | zero =>
      intro p fs h
      simp only [pagesLoop] at h
      refine ⟨fun _ => [], by omega, ?_⟩
      simpa using h.symm
  | succ k ih =>
      intro p fs h
      simp only [pagesLoop] at h
      cases hpage : get_pdf_page_regions env url p with
      | error e => simp [hpage] at h
      | ok pageFs =>
          simp only [hpage] at h
          cases hrest : pagesLoop env url (p + 1) k with
          | error e => simp [hrest] at h
          | ok rest =>
              simp only [hrest, Except.ok.injEq] at h
              have hfs : fs = pageFs ++ rest := h.symm
              obtain ⟨perPage, hper, hrest_eq⟩ := ih (p + 1) rest hrest
              refine ⟨fun q => if q = p then pageFs else perPage q, ?_, ?_⟩
              · intro q hpq hq
                show get_pdf_page_regions env url q = .ok (if q = p then pageFs else perPage q)
                by_cases hqp : q = p
                · subst hqp; rw [if_pos rfl]; exact hpage
                · rw [if_neg hqp]
                  exact hper q (by omega) (by omega)
              · show fs = ((List.range' p (k + 1)).map
                    (fun q => if q = p then pageFs else perPage q)).flatten
                rw [List.range'_succ, List.map_cons, List.flatten_cons, if_pos rfl]
                have : (List.range' (p + 1) k).map
                    (fun q => if q = p then pageFs else perPage q) =
                    (List.range' (p + 1) k).map perPage := by
                  apply List.map_congr_left
                  intro q hq
                  rw [List.mem_range'] at hq
                  obtain ⟨i, -, rfl⟩ := hq
                  rw [if_neg (by omega)]
                rw [this, ← hrest_eq, hfs]

/-- Inversion for a successful `get_pdf_regions` call. -/
lemma get_pdf_regions_ok (env : Env) (pdf_url : String) (rs : List RegionOut)
    (h : get_pdf_regions env pdf_url = .ok rs) :
    ∃ pdfBytes allFormulas,
      download_pdf env (resolve_pdf_path pdf_url) = .ok pdfBytes ∧
      pagesLoop env (resolve_pdf_path pdf_url) 1 (env.pages pdfBytes) = .ok allFormulas ∧
      rs = allFormulas.enum.map fun p => ⟨p.2.bbox, p.2.page, p.1⟩ := by
  simp only [get_pdf_regions] at h
  cases hdl : download_pdf env (resolve_pdf_path pdf_url) with
  | error e => simp [hdl] at h
  | ok pdfBytes =>
      simp only [hdl] at h
      cases hlp : pagesLoop env (resolve_pdf_path pdf_url) 1 (env.pages pdfBytes) with
      | error e => simp [hlp] at h
      | ok allFormulas =>
          simp only [hlp, Except.ok.injEq] at h
          exact ⟨pdfBytes, allFormulas, rfl, hlp, h.symm⟩

/-- The second component of an enumerated entry is a member of the original
list. -/
lemma snd_mem_of_mem_enum {α : Type} {l : List α} {x : Nat × α}
    (h : x ∈ l.enum) : x.2 ∈ l := by
  have := List.mem_map_of_mem Prod.snd h
  rwa [List.enum, List.enumFrom_map_snd] at this

/-- The id of the `i`-th region handle returned by `get_pdf_regions` is `i`
(0-based running concatenation index). -/
lemma regions_id (env : Env) (pdf_url : String) (rs : List RegionOut)
    (h : get_pdf_regions env pdf_url = .ok rs) :
    ∀ (i : Nat) (hi : i < rs.length), (rs.get ⟨i, hi⟩).id = i := by
  obtain ⟨pdfBytes, allFormulas, -, -, hrs⟩ := get_pdf_regions_ok env pdf_url rs h
  subst hrs
  intro i hi
  simp only [List.length_map, List.enum, List.enumFrom_length] at hi
  simp [List.get_eq_getElem, List.getElem_map, List.enum, List.getElem_enumFrom]

/-- Idempotence helper: a string whose first character is `'/'` does not
start with `"local://"`. -/
lemma not_local_of_slash (s : String) (rest : List Char)
    (h : s.data = '/' :: rest) : pyStartswith s "local://" = false := by
  simp only [pyStartswith, h]
  rfl

/-- A string accepted by `pyStartswith · "/"` begins with the character
`'/'`. -/
lemma slash_head (name : String) (h : pyStartswith name "/" = true) :
    ∃ rest, name.data = '/' :: rest := by
  simp only [pyStartswith] at h
  cases hd : name.data with
  | nil => rw [hd] at h; simp [List.isPrefixOf] at h
  | cons c cs =>
      rw [hd] at h
      have : ('/' == c) = true := by
        simpa [List.isPrefixOf] using h
      have hc : c = '/' := (eq_of_beq this).symm
      exact ⟨cs, by rw [hc]⟩

/-- The string produced by `uploadDirJoin` always begins with `'/'`. -/
lemma uploadDirJoin_slash (name : String) :
    ∃ rest, (uploadDirJoin name).data = '/' :: rest := by
  by_cases h : pyStartswith name "/"
  · obtain ⟨rest, hrest⟩ := slash_head name h
    exact ⟨rest, by simp only [uploadDirJoin, h, if_pos]; exact hrest⟩
  · refine ⟨("tmp/uploaded_pdfs/").data ++ name.data, ?_⟩
    simp only [uploadDirJoin, h]
    rw [if_neg (by simp)]
    rw [String.data_append]
    rfl

/-- `resolve_pdf_path` is idempotent: its output never starts with
`"local://"` again. -/
lemma resolve_idem (s : String) :
    resolve_pdf_path (resolve_pdf_path s) = resolve_pdf_path s := by
  by_cases h : pyStartswith s "local://"
  · have e : resolve_pdf_path s = uploadDirJoin (String.mk (stripLocal s.data) ++ ".pdf") := by
      rw [resolve_pdf_path, if_pos h]
    obtain ⟨rest, hrest⟩ :=
      uploadDirJoin_slash (String.mk (stripLocal s.data) ++ ".pdf")
    rw [e, resolve_pdf_path, not_local_of_slash _ rest hrest]
    simp
  · have e : resolve_pdf_path s = s := by rw [resolve_pdf_path, if_neg h]
    rw [e, e]

/-- Provenance of region handles: every handle returned by
`get_pdf_regions` stems from a well-shaped, above-threshold detection on a
page inside the document, and its bbox is that detection's normalized box. -/
lemma regions_provenance (env : Env) (pdf_url : String) (rs : List RegionOut)
    (h : get_pdf_regions env pdf_url = .ok rs) :
    ∃ pdfBytes, download_pdf env (resolve_pdf_path pdf_url) = .ok pdfBytes ∧
      ∀ r ∈ rs, ∃ q p0 p1 p2 p3 score,
        1 ≤ q ∧ q ≤ env.pages pdfBytes ∧ r.pagenum = q ∧
        DetectItem.det p0 p1 p2 p3 score ∈ env.detect (env.raster pdfBytes q) ∧
        min_score ≤ score ∧ r.bbox = normBBox (env.raster pdfBytes q) p0 p2 := by
  obtain ⟨pdfBytes, allFormulas, hdl, hlp, hrs⟩ := get_pdf_regions_ok env pdf_url rs h
  obtain ⟨perPage, hper, hflat⟩ := pagesLoop_ok env (resolve_pdf_path pdf_url) _ _ _ hlp
  refine ⟨pdfBytes, hdl, ?_⟩
  intro r hr
  rw [hrs] at hr
  obtain ⟨pair, hpair, hpr⟩ := List.mem_map.mp hr
  have hfrm : pair.2 ∈ allFormulas := snd_mem_of_mem_enum hpair
  rw [hflat] at hfrm
  obtain ⟨l, hl, hfl⟩ := List.mem_flatten.mp hfrm
  obtain ⟨q, hq, rfl⟩ := List.mem_map.mp hl
  rw [List.mem_range'] at hq
  obtain ⟨i, hik, hqi⟩ := hq
  have hq1 : 1 ≤ q := by omega
  have hqN : q ≤ env.pages pdfBytes := by omega
  obtain ⟨pdfBytes2, image, restImgs, hdl2, hcv, hfs⟩ :=
    get_pdf_page_regions_ok env (resolve_pdf_path pdf_url) q (perPage q)
      (hper q (by omega) (by omega))
  rw [resolve_idem, hdl] at hdl2
  injection hdl2 with hb
  subst hb
  rw [convertFromBytes_singleton env pdfBytes q hq1 hqN] at hcv
  injection hcv with h1 h2
  subst h1
  rw [hfs] at hfl
  obtain ⟨p0, p1, p2, p3, score, hmem, hscore, hfrm_eq⟩ :=
    pageFormulas_mem _ _ _ _ hfl
  refine ⟨q, p0, p1, p2, p3, score, hq1, hqN, ?_, hmem, hscore, ?_⟩
  · rw [← hpr, hfrm_eq]
  · rw [← hpr, hfrm_eq]

/-- For a valid region id on an already-resolved document identifier,
`get_pdf_latex` reaches recognition and succeeds, returning the recognized
text (or `""` when the model raised) for the crop rectangle of the selected
region on its owning page's image. -/
lemma get_pdf_latex_valid (env : Env) (pdf_url : String) (rs : List RegionOut)
    (hok : get_pdf_regions env pdf_url = .ok rs)
    (hres : resolve_pdf_path pdf_url = pdf_url)
    (latex_id : ℤ) (h0 : 0 ≤ latex_id) (hlt : latex_id < (rs.length : ℤ)) :
    ∃ (hn : latex_id.toNat < rs.length) (pdfBytes : Bytes),
      download_pdf env pdf_url = .ok pdfBytes ∧
      get_pdf_latex env pdf_url latex_id =
        .ok ⟨(env.recognize
                (env.raster pdfBytes (rs.get ⟨latex_id.toNat, hn⟩).pagenum)
                (cropRect (env.raster pdfBytes (rs.get ⟨latex_id.toNat, hn⟩).pagenum)
                  (rs.get ⟨latex_id.toNat, hn⟩).bbox)).getD ""⟩ := by
  have hn : latex_id.toNat < rs.length := by omega
  obtain ⟨pdfBytes, hdl, hall⟩ := regions_provenance env pdf_url rs hok
  rw [hres] at hdl
  have hrmem : rs.get ⟨latex_id.toNat, hn⟩ ∈ rs := List.get_mem rs _ hn
  obtain ⟨q, p0, p1, p2, p3, score, hq1, hqN, hpage_eq, -, -, -⟩ :=
    hall (rs.get ⟨latex_id.toNat, hn⟩) hrmem
  have hgcp : get_cached_page env pdf_url (rs.get ⟨latex_id.toNat, hn⟩).pagenum =
      .ok (env.raster pdfBytes (rs.get ⟨latex_id.toNat, hn⟩).pagenum) := by
    simp only [get_cached_page, get_pdf_page_image, hdl, hpage_eq,
      convertFromBytes_singleton env pdfBytes q hq1 hqN]
  refine ⟨hn, pdfBytes, hdl, ?_⟩
  simp only [get_pdf_latex, hok]
  rw [dif_neg (by omega : ¬(latex_id < 0 ∨ (rs.length : ℤ) ≤ latex_id))]
  simp only [hgcp]

/-! ## Cache-threading lemmas for claim C9 -/

/-- On a coherent cache, a call through the memoized wrapper returns exactly
what the memoized function returns. -/
lemma pageC_fst (env : Env) (cache : PageCache) (pdf_url : String)
    (page_num : Nat) (h : coherent env cache) :
    (get_pdf_page_regions_c env cache pdf_url page_num).1 =
      get_pdf_page_regions env pdf_url page_num := by
  simp only [get_pdf_page_regions_c]
  cases hc : cacheLookup cache (pdf_url, page_num) with
  | some v => simp [h (pdf_url, page_num) v hc]
  | none => cases hg : get_pdf_page_regions env pdf_url page_num <;> simp [hg]

/-- A call through the memoized wrapper preserves cache coherence. -/
lemma pageC_coh (env : Env) (cache : PageCache) (pdf_url : String)
    (page_num : Nat) (h : coherent env cache) :
    coherent env (get_pdf_page_regions_c env cache pdf_url page_num).2 := by
  simp only [get_pdf_page_regions_c]
  cases hc : cacheLookup cache (pdf_url, page_num) with
  | some v => simpa using h
  | none =>
      cases hg : get_pdf_page_regions env pdf_url page_num with
      | error e => simpa using h
      | ok v =>
          intro key w hkw
          simp only [cacheLookup] at hkw
          by_cases hkey : (pdf_url, page_num) = key
          · subst hkey
            rw [if_pos rfl] at hkw
            cases hkw
            exact hg
          · rw [if_neg hkey] at hkw
            exact h key w hkw

/-- The page loop with the cache threaded returns the same result as the
cache-free page loop, and leaves the cache coherent. -/
lemma loopC (env : Env) (url : String) :
    ∀ (k p : Nat) (cache : PageCache), coherent env cache →
      (pagesLoop_c env url p k cache).1 = pagesLoop env url p k ∧
      coherent env (pagesLoop_c env url p k cache).2 := by
  intro k
  induction k with
  | zero => intro p cache h; exact ⟨rfl, h⟩
  | succ k ih =>
      intro p cache h
      have hfst := pageC_fst env cache url p h
      have hcoh := pageC_coh env cache url p h
      rcases hpc : get_pdf_page_regions_c env cache url p with ⟨r1, cache1⟩
      rw [hpc] at hfst hcoh
      simp only at hfst hcoh
      cases hg : get_pdf_page_regions env url p with
      | error e =>
          rw [hg] at hfst
          subst hfst
          simp only [pagesLoop_c, pagesLoop, hpc, hg]
          exact ⟨trivial, hcoh⟩
      | ok pageFs =>
          rw [hg] at hfst
          subst hfst
          obtain ⟨ih1, ih2⟩ := ih (p + 1) cache1 hcoh
          rcases hlc : pagesLoop_c env url (p + 1) k cache1 with ⟨r2, cache2⟩
          rw [hlc] at ih1 ih2
          simp only at ih1 ih2
          cases hl : pagesLoop env url (p + 1) k with
          | error e =>
              rw [hl] at ih1
              subst ih1
              simp only [pagesLoop_c, pagesLoop, hpc, hlc, hg, hl]
              exact ⟨trivial, ih2⟩
          | ok rest =>
              rw [hl] at ih1
              subst ih1
              simp only [pagesLoop_c, pagesLoop, hpc, hlc, hg, hl]
              exact ⟨trivial, ih2⟩

/-- `get_pdf_regions` through the threaded cache returns the same result as
the cache-free `get_pdf_regions`, and leaves the cache coherent. -/
lemma regionsC (env : Env) (cache : PageCache) (pdf_url : String)
    (h : coherent env cache) :
    (get_pdf_regions_c env cache pdf_url).1 = get_pdf_regions env pdf_url ∧
    coherent env (get_pdf_regions_c env cache pdf_url).2 := by
  cases hdl : download_pdf env (resolve_pdf_path pdf_url) with
  | error e =>
      simp only [get_pdf_regions_c, get_pdf_regions, hdl]
      exact ⟨trivial, h⟩
  | ok pdfBytes =>
      obtain ⟨h1, h2⟩ := loopC env (resolve_pdf_path pdf_url)
        (env.pages pdfBytes) 1 cache h
      rcases hlc : pagesLoop_c env (resolve_pdf_path pdf_url) 1 (env.pages pdfBytes) cache
        with ⟨r1, cache1⟩
      rw [hlc] at h1 h2
      simp only at h1 h2
      simp only [get_pdf_regions_c, get_pdf_regions, hdl, hlc]
      subst h1
      cases hl : pagesLoop env (resolve_pdf_path pdf_url) 1 (env.pages pdfBytes) with
      | error e => exact ⟨rfl, h2⟩
      | ok allFormulas => exact ⟨rfl, h2⟩

/-- The spec's RegionHandle bbox invariant: all four values lie in `[0,1]`,
with `x1 < x2` and `y1 < y2`. -/
def bboxInvariant (b : BBox4) : Prop :=
  0 ≤ b.x1 ∧ b.x1 ≤ 1 ∧ 0 ≤ b.y1 ∧ b.y1 ≤ 1 ∧ 0 ≤ b.x2 ∧ b.x2 ≤ 1 ∧
  0 ≤ b.y2 ∧ b.y2 ≤ 1 ∧ b.x1 < b.x2 ∧ b.y1 < b.y2

/-- A detection box that lies inside its page and is non-degenerate:
`0 ≤ x1 < x2 ≤ width` and `0 ≤ y1 < y2 ≤ height` in pixel coordinates. -/
def boxInPage (image : RasterImage) (p0 p2 : ℚ × ℚ) : Prop :=
  0 ≤ p0.1 ∧ p0.1 < p2.1 ∧ p2.1 ≤ (image.width : ℚ) ∧
  0 ≤ p0.2 ∧ p0.2 < p2.2 ∧ p2.2 ≤ (image.height : ℚ)

/-! ## Concrete evaluations of the scenario environments -/

/-- Region index of the `envC2` scenario document: exactly the two page-1
regions, with ids 0 and 1. -/
lemma envC2_regions : get_pdf_regions envC2 "http://d" = .ok rsC2 := by
  with_unfolding_all rfl

/-- Region index of the `envC8` counterexample document: one handle with the
degenerate bbox. -/
lemma envC8_regions : get_pdf_regions envC8 "http://z" = .ok [⟨⟨0, 0, 0, 0⟩, 1, 0⟩] := by
  with_unfolding_all rfl

/-- Variant of `envC6` whose recognition model always raises. -/
def envC6n : Env :=
  { envC6 with recognize := fun _ _ => none }

/-- Region index of the `envC6` scenario document (shared by `envC6n`, which
differs only in the recognition model). -/
def rsC6 : List RegionOut :=
  [⟨⟨0, 0, 1/10, 1/2⟩, 1, 0⟩, ⟨⟨1/10, 0, 1/5, 1/2⟩, 1, 1⟩,
   ⟨⟨1/5, 0, 3/10, 1/2⟩, 1, 2⟩, ⟨⟨3/10, 0, 2/5, 1/2⟩, 1, 3⟩,
   ⟨⟨2/5, 0, 1/2, 1/2⟩, 1, 4⟩]

lemma envC6n_regions : get_pdf_regions envC6n "http://d5" = .ok rsC6 := by
  with_unfolding_all rfl

lemma envC6_spoken : get_all_spoken_math envC6 "http://d5" =
    .ok [⟨0, "x", "s"⟩, ⟨1, "x", "s"⟩, ⟨2, "", ""⟩, ⟨3, "x", "s"⟩, ⟨4, "x", "s"⟩] := by
  with_unfolding_all rfl

/-- The first page-1 formula of the `envC2` scenario is among the detection
loop's output for that page. -/
lemma pageFormulas_envC2_mem :
    (⟨1, none, ⟨1/10, 1/10, 1/5, 1/5⟩⟩ : PDFMathFormula) ∈
      pageFormulas (imgC2 1) (envC2.detect (imgC2 1)) 1 := by
  have h : pageFormulas (imgC2 1) (envC2.detect (imgC2 1)) 1 =
      [⟨1, none, ⟨1/10, 1/10, 1/5, 1/5⟩⟩, ⟨1, none, ⟨3/10, 3/10, 2/5, 2/5⟩⟩] := by
    with_unfolding_all rfl
  rw [h]
  exact List.mem_cons_self _ _

/-- Every detection `envC2` emits has positive page dimensions and an
in-page, non-degenerate box. -/
lemma envC2_detect_inPage :
    ∀ (image : RasterImage) (p0 p1 p2 p3 : ℚ × ℚ) (score : ℚ),
      DetectItem.det p0 p1 p2 p3 score ∈ envC2.detect image →
      0 < image.width ∧ 0 < image.height ∧ boxInPage image p0 p2 := by
  intro image p0 p1 p2 p3 score h
  have h' : DetectItem.det p0 p1 p2 p3 score ∈
      (if image = imgC2 1 then
        [DetectItem.det (10, 10) (20, 10) (20, 20) (10, 20) 1,
         DetectItem.det (30, 30) (40, 30) (40, 40) (30, 40) 1]
      else []) := h
  by_cases himg : image = imgC2 1
  · rw [if_pos himg] at h'
    subst himg
    simp only [List.mem_cons, List.not_mem_nil, or_false,
      DetectItem.det.injEq] at h'
    rcases h' with ⟨hp0, -, hp2, -, -⟩ | ⟨hp0, -, hp2, -, -⟩ <;>
      subst hp0 <;> subst hp2 <;>
      refine ⟨by norm_num [imgC2], by norm_num [imgC2], ?_⟩ <;>
      norm_num [boxInPage, imgC2]
  · rw [if_neg himg] at h'
    simp at h'

/-- Lower/upper truncation bounds: for a nonnegative rational, `pyInt` is
the floor. -/
lemma pyInt_floor (q : ℚ) (h : 0 ≤ q) : pyInt q = ⌊q⌋ := by
  rw [pyInt, Rat.floor_def]
  exact Int.tdiv_eq_ediv (Rat.num_nonneg.mpr h) (by positivity)

lemma pyInt_trunc (q : ℚ) (h : 0 ≤ q) :
    ((pyInt q : ℤ) : ℚ) ≤ q ∧ q < ((pyInt q : ℤ) : ℚ) + 1 := by
  rw [pyInt_floor q h]
  refine ⟨Int.floor_le q, ?_⟩
  have := Int.lt_floor_add_one q
  push_cast at this ⊢
  exact this

/-! ## Claim theorems -/

/-- Claim C2: `get_pdf_regions` determines the page count once, runs
per-page detection for pages 1..N in ascending order, concatenates the
per-page regions in detection order, and assigns each handle an id equal to
its 0-based position in the concatenation; in the 3-page scenario where page
1 has 2 above-threshold regions and pages 2-3 have none, it returns exactly
two handles with ids 0 and 1, both on page 1. -/
theorem claim_C2 :
    (∀ (env : Env) (pdf_url : String) (rs : List RegionOut),
        get_pdf_regions env pdf_url = .ok rs →
        (∀ (i : Nat) (hi : i < rs.length), (rs.get ⟨i, hi⟩).id = i) ∧
        ∃ (pdfBytes : Bytes) (perPage : Nat → List PDFMathFormula),
          download_pdf env (resolve_pdf_path pdf_url) = .ok pdfBytes ∧
          (∀ q, 1 ≤ q → q ≤ env.pages pdfBytes →
            get_pdf_page_regions env (resolve_pdf_path pdf_url) q = .ok (perPage q)) ∧
          rs.map (fun r => (r.pagenum, r.bbox)) =
            ((List.range' 1 (env.pages pdfBytes)).map perPage).flatten.map
              (fun f => (f.page, f.bbox))) ∧
    get_pdf_regions envC2 "http://d" = .ok rsC2 := by
  constructor
  · intro env pdf_url rs hok
    refine ⟨regions_id env pdf_url rs hok, ?_⟩
    obtain ⟨pdfBytes, allFormulas, hdl, hlp, hrs⟩ := get_pdf_regions_ok env pdf_url rs hok
    obtain ⟨perPage, hper, hflat⟩ := pagesLoop_ok env (resolve_pdf_path pdf_url) _ _ _ hlp
    refine ⟨pdfBytes, perPage, hdl, fun q h1 h2 => hper q h1 (by omega), ?_⟩
    rw [← hflat, hrs, List.map_map]
    conv_rhs => rw [← List.enumFrom_map_snd 0 allFormulas, List.map_map]
    rfl
  · exact envC2_regions

/-- Witness for C2 at the scenario document of `envC2`. -/
theorem claim_C2_witness :
    (∀ (i : Nat) (hi : i < rsC2.length), (rsC2.get ⟨i, hi⟩).id = i) ∧
    ∃ (pdfBytes : Bytes) (perPage : Nat → List PDFMathFormula),
      download_pdf envC2 (resolve_pdf_path "http://d") = .ok pdfBytes ∧
      (∀ q, 1 ≤ q → q ≤ envC2.pages pdfBytes →
        get_pdf_page_regions envC2 (resolve_pdf_path "http://d") q = .ok (perPage q)) ∧
      rsC2.map (fun r => (r.pagenum, r.bbox)) =
        ((List.range' 1 (envC2.pages pdfBytes)).map perPage).flatten.map
          (fun f => (f.page, f.bbox)) :=
  claim_C2.1 envC2 "http://d" rsC2 claim_C2.2

/-- Counterexample to claim C3 as stated: for the locally-uploaded document
`"local://abc"` of `envC3`, the region index builds successfully and is
nonempty (one region, id 0), yet `get_pdf_latex` at `region_id = 0` does not
succeed — it fails with the fetch error, because `get_pdf_regions` resolves
the identifier internally while `get_cached_page` receives the raw
`local://` key (backend.py line 290), on which `download_pdf` falls through
to `requests.get` and raises. -/
theorem claim_C3_counterexample :
    get_pdf_regions envC3 "local://abc" = .ok [⟨⟨1/10, 1/10, 1/5, 1/5⟩, 1, 0⟩] ∧
    get_pdf_latex envC3 "local://abc" 0 = .error Err.fetchFailed ∧
    ¬ ∃ out, get_pdf_latex envC3 "local://abc" 0 = .ok out := by
  have h1 : get_pdf_regions envC3 "local://abc" =
      .ok [⟨⟨1/10, 1/10, 1/5, 1/5⟩, 1, 0⟩] := by with_unfolding_all rfl
  have h2 : get_pdf_latex envC3 "local://abc" 0 = .error Err.fetchFailed := by
    with_unfolding_all rfl
  refine ⟨h1, h2, ?_⟩
  rintro ⟨out, hout⟩
  rw [h2] at hout
  exact Except.noConfusion hout

/-- Claim C3 (amended): whenever the region index builds successfully,
`get_pdf_latex` fails with the invalid-region-id error for EVERY
`region_id < 0` or `region_id ≥ len(index)`; and it succeeds for
`region_id = 0` whenever at least one region exists, PROVIDED the document
identifier is already resolved (`resolve_pdf_path` fixes it, i.e. it is not
a `local://` handle) — for a raw `local://` key the code instead fails at
the page fetch, see the counterexample. -/
theorem claim_C3 (env : Env) (pdf_url : String) (rs : List RegionOut)
    (hok : get_pdf_regions env pdf_url = .ok rs) :
    (∀ latex_id : ℤ, latex_id < 0 ∨ (rs.length : ℤ) ≤ latex_id →
      get_pdf_latex env pdf_url latex_id = .error Err.invalidRegionId) ∧
    (resolve_pdf_path pdf_url = pdf_url → rs ≠ [] →
      ∃ out, get_pdf_latex env pdf_url 0 = .ok out) := by
  constructor
  · intro latex_id hbad
    simp only [get_pdf_latex, hok]
    rw [dif_pos hbad]
  · intro hres hne
    have hpos : 0 < rs.length := List.length_pos.mpr hne
    obtain ⟨hn, pdfBytes, hdl, heq⟩ :=
      get_pdf_latex_valid env pdf_url rs hok hres 0 (by omega) (by exact_mod_cast hpos)
    exact ⟨_, heq⟩

/-- Witness for the amended C3 at the scenario document of `envC2`:
invalid-region-id at the below-range id `-7` and the above-range id `9`, and
success at id `0`. -/
theorem claim_C3_witness :
    get_pdf_latex envC2 "http://d" (-7) = .error Err.invalidRegionId ∧
    get_pdf_latex envC2 "http://d" 9 = .error Err.invalidRegionId ∧
    (∃ out, get_pdf_latex envC2 "http://d" 0 = .ok out) := by
  have h := claim_C3 envC2 "http://d" rsC2 envC2_regions
  exact ⟨h.1 (-7) (Or.inl (by decide)), h.1 9 (Or.inr (by decide)),
    h.2 rfl (by simp [rsC2])⟩

/-- Claim C4: the per-page detection loop keeps exactly the well-shaped
detections whose score meets `min_score`; a malformed detection is skipped
without aborting the page or affecting the other detections' results. -/
theorem claim_C4 :
    (∀ (image : RasterImage) (results1 results2 : List DetectItem) (page_num : Nat),
        pageFormulas image (results1 ++ DetectItem.malformed :: results2) page_num =
          pageFormulas image (results1 ++ results2) page_num) ∧
    (∀ (image : RasterImage) (p0 p1 p2 p3 : ℚ × ℚ) (score : ℚ) (page_num : Nat),
        pageFormulas image [DetectItem.det p0 p1 p2 p3 score] page_num =
          if min_score ≤ score then [⟨page_num, none, normBBox image p0 p2⟩]
          else []) ∧
    (∀ (image : RasterImage) (results : List DetectItem) (page_num : Nat)
        (f : PDFMathFormula), f ∈ pageFormulas image results page_num →
        ∃ p0 p1 p2 p3 score, DetectItem.det p0 p1 p2 p3 score ∈ results ∧
          min_score ≤ score ∧ f = ⟨page_num, none, normBBox image p0 p2⟩) := by
  refine ⟨?_, ?_, ?_⟩
  · intro image results1 results2 page_num
    simp [pageFormulas, List.filterMap_append]
  · intro image p0 p1 p2 p3 score page_num
    by_cases hs : min_score ≤ score <;> simp [pageFormulas, hs]
  · exact fun image results page_num f h => pageFormulas_mem image results page_num f h

/-- Witness for C4: the first formula of the `envC2` page-1 detection loop
comes from an above-threshold, well-shaped detection. -/
theorem claim_C4_witness :
    ∃ p0 p1 p2 p3 score,
      DetectItem.det p0 p1 p2 p3 score ∈ envC2.detect (imgC2 1) ∧
      min_score ≤ score ∧
      (⟨1, none, ⟨1/10, 1/10, 1/5, 1/5⟩⟩ : PDFMathFormula) =
        ⟨1, none, normBBox (imgC2 1) p0 p2⟩ :=
  claim_C4.2.2 (imgC2 1) (envC2.detect (imgC2 1)) 1 _ pageFormulas_envC2_mem

/-- Claim C5: the pixel crop rectangle is each normalized coordinate times
the matching image dimension, truncated to an integer; for bbox
`(0.1, 0.2, 0.5, 0.6)` on a 1000×2000 page image it is exactly
`(100, 400, 500, 1200)`. -/
theorem claim_C5 :
    cropRect ⟨1000, 2000, 0⟩ ⟨0.1, 0.2, 0.5, 0.6⟩ = (100, 400, 500, 1200) ∧
    ∀ (page_image : RasterImage) (b : BBox4),
      0 ≤ b.x1 → 0 ≤ b.y1 → 0 ≤ b.x2 → 0 ≤ b.y2 →
      (((cropRect page_image b).1 : ℚ) ≤ b.x1 * (page_image.width : ℚ) ∧
        b.x1 * (page_image.width : ℚ) < ((cropRect page_image b).1 : ℚ) + 1) ∧
      (((cropRect page_image b).2.1 : ℚ) ≤ b.y1 * (page_image.height : ℚ) ∧
        b.y1 * (page_image.height : ℚ) < ((cropRect page_image b).2.1 : ℚ) + 1) ∧
      (((cropRect page_image b).2.2.1 : ℚ) ≤ b.x2 * (page_image.width : ℚ) ∧
        b.x2 * (page_image.width : ℚ) < ((cropRect page_image b).2.2.1 : ℚ) + 1) ∧
      (((cropRect page_image b).2.2.2 : ℚ) ≤ b.y2 * (page_image.height : ℚ) ∧
        b.y2 * (page_image.height : ℚ) < ((cropRect page_image b).2.2.2 : ℚ) + 1) := by
  constructor
  · with_unfolding_all rfl
  · intro page_image b hx1 hy1 hx2 hy2
    have hw : (0 : ℚ) ≤ (page_image.width : ℚ) := by positivity
    have hh : (0 : ℚ) ≤ (page_image.height : ℚ) := by positivity
    exact ⟨pyInt_trunc _ (mul_nonneg hx1 hw), pyInt_trunc _ (mul_nonneg hy1 hh),
      pyInt_trunc _ (mul_nonneg hx2 hw), pyInt_trunc _ (mul_nonneg hy2 hh)⟩

/-- Witness for C5's general truncation bounds at a concrete rectangle. -/
theorem claim_C5_witness :
    (((cropRect ⟨1000, 2000, 0⟩ ⟨0, 0, 1, 1⟩).1 : ℚ) ≤ 0 * ((1000 : Nat) : ℚ) ∧
      0 * ((1000 : Nat) : ℚ) < ((cropRect ⟨1000, 2000, 0⟩ ⟨0, 0, 1, 1⟩).1 : ℚ) + 1) ∧
    (((cropRect ⟨1000, 2000, 0⟩ ⟨0, 0, 1, 1⟩).2.1 : ℚ) ≤ 0 * ((2000 : Nat) : ℚ) ∧
      0 * ((2000 : Nat) : ℚ) < ((cropRect ⟨1000, 2000, 0⟩ ⟨0, 0, 1, 1⟩).2.1 : ℚ) + 1) ∧
    (((cropRect ⟨1000, 2000, 0⟩ ⟨0, 0, 1, 1⟩).2.2.1 : ℚ) ≤ 1 * ((1000 : Nat) : ℚ) ∧
      1 * ((1000 : Nat) : ℚ) < ((cropRect ⟨1000, 2000, 0⟩ ⟨0, 0, 1, 1⟩).2.2.1 : ℚ) + 1) ∧
    (((cropRect ⟨1000, 2000, 0⟩ ⟨0, 0, 1, 1⟩).2.2.2 : ℚ) ≤ 1 * ((2000 : Nat) : ℚ) ∧
      1 * ((2000 : Nat) : ℚ) < ((cropRect ⟨1000, 2000, 0⟩ ⟨0, 0, 1, 1⟩).2.2.2 : ℚ) + 1) :=
  claim_C5.2 ⟨1000, 2000, 0⟩ ⟨0, 0, 1, 1⟩ (le_refl 0) (le_refl 0) zero_le_one zero_le_one

/-- Claim C6: if the recognition model raises for a region, that region's
recognition call does not fail but returns empty text; a bulk recognize-all
call over a 5-region document where the model raises on region 2 still
returns 5 results, with region 2's text empty and the other four
populated. -/
theorem claim_C6 :
    (∀ (env : Env) (pdf_url : String) (rs : List RegionOut) (latex_id : ℤ),
        env.recognize = (fun _ _ => none) →
        get_pdf_regions env pdf_url = .ok rs →
        resolve_pdf_path pdf_url = pdf_url →
        0 ≤ latex_id → latex_id < (rs.length : ℤ) →
        get_pdf_latex env pdf_url latex_id = .ok ⟨""⟩) ∧
    get_all_spoken_math envC6 "http://d5" =
      .ok [⟨0, "x", "s"⟩, ⟨1, "x", "s"⟩, ⟨2, "", ""⟩, ⟨3, "x", "s"⟩, ⟨4, "x", "s"⟩] := by
  constructor
  · intro env pdf_url rs latex_id hrec hok hres h0 hlt
    obtain ⟨hn, pdfBytes, hdl, heq⟩ :=
      get_pdf_latex_valid env pdf_url rs hok hres latex_id h0 hlt
    rw [heq, hrec]
    rfl
  · exact envC6_spoken

/-- Witness for C6's model-failure containment at `envC6n` (the scenario
document with an always-raising recognition model). -/
theorem claim_C6_witness : get_pdf_latex envC6n "http://d5" 0 = .ok ⟨""⟩ :=
  claim_C6.1 envC6n "http://d5" rsC6 0 rfl envC6n_regions rfl (by decide) (by decide)

/-- Claim C7: `get_pdf_page_image` fails with the page-out-of-range error
whenever the requested page number exceeds the document's page count. -/
theorem claim_C7 (env : Env) (pdf_url : String) (page_num : Nat)
    (pdfBytes : Bytes) (hdl : download_pdf env pdf_url = .ok pdfBytes)
    (hgt : env.pages pdfBytes < page_num) :
    get_pdf_page_image env pdf_url page_num = .error Err.pageOutOfRange := by
  simp only [get_pdf_page_image, hdl,
    convertFromBytes_nil env pdfBytes page_num hgt]

/-- Witness for C7: page 4 of the 3-page `envC2` document. -/
theorem claim_C7_witness :
    get_pdf_page_image envC2 "http://d" 4 = .error Err.pageOutOfRange :=
  claim_C7 envC2 "http://d" 4 0 rfl (by decide)

/-- Counterexample to claim C8 as stated: a well-shaped, above-threshold
detection whose box is the degenerate all-zero quadrilateral passes the
pipeline's shape check unchanged, and the resulting RegionHandle's bbox
`(0, 0, 0, 0)` violates `x1 < x2`. -/
theorem claim_C8_counterexample :
    get_pdf_regions envC8 "http://z" = .ok [⟨⟨0, 0, 0, 0⟩, 1, 0⟩] ∧
    ¬ bboxInvariant ⟨0, 0, 0, 0⟩ := by
  refine ⟨envC8_regions, ?_⟩
  intro h
  exact absurd h.2.2.2.2.2.2.2.2.1 (lt_irrefl 0)

/-- Claim C8 (amended): provided every detection the model emits has
positive page dimensions and an in-page, non-degenerate box
(`0 ≤ x1 < x2 ≤ width`, `0 ≤ y1 < y2 ≤ height`), every RegionHandle
produced by the pipeline satisfies the bbox invariant: all four values in
`[0,1]`, `x1 < x2`, `y1 < y2`.  (The code itself never clamps or checks the
detector's coordinates, so the unconditional claim fails, see the
counterexample.) -/
theorem claim_C8 (env : Env)
    (hdet : ∀ (image : RasterImage) (p0 p1 p2 p3 : ℚ × ℚ) (score : ℚ),
        DetectItem.det p0 p1 p2 p3 score ∈ env.detect image →
        0 < image.width ∧ 0 < image.height ∧ boxInPage image p0 p2) :
    ∀ (pdf_url : String) (rs : List RegionOut),
      get_pdf_regions env pdf_url = .ok rs → ∀ r ∈ rs, bboxInvariant r.bbox := by
  intro pdf_url rs hok r hr
  obtain ⟨pdfBytes, hdl, hall⟩ := regions_provenance env pdf_url rs hok
  obtain ⟨q, p0, p1, p2, p3, score, -, -, -, hmem, -, hbbox⟩ := hall r hr
  obtain ⟨hw, hh, h1, h2, h3, h4, h5, h6⟩ := hdet _ _ _ _ _ _ hmem
  rw [hbbox]
  have hW : (0 : ℚ) < ((env.raster pdfBytes q).width : ℚ) := by exact_mod_cast hw
  have hH : (0 : ℚ) < ((env.raster pdfBytes q).height : ℚ) := by exact_mod_cast hh
  exact ⟨div_nonneg h1 hW.le, (div_le_one hW).mpr (le_trans h2.le h3),
    div_nonneg h4 hH.le, (div_le_one hH).mpr (le_trans h5.le h6),
    div_nonneg (le_trans h1 h2.le) hW.le, (div_le_one hW).mpr h3,
    div_nonneg (le_trans h4 h5.le) hH.le, (div_le_one hH).mpr h6,
    (div_lt_div_iff_of_pos_right hW).mpr h2, (div_lt_div_iff_of_pos_right hH).mpr h5⟩

/-- Witness for the amended C8 at the `envC2` scenario document. -/
theorem claim_C8_witness : bboxInvariant (⟨1/10, 1/10, 1/5, 1/5⟩ : BBox4) :=
  claim_C8 envC2 envC2_detect_inPage "http://d" rsC2 envC2_regions
    ⟨⟨1/10, 1/10, 1/5, 1/5⟩, 1, 0⟩ (by simp [rsC2])

/-- Claim C9: on a coherent cache (every state `lru_cache` can reach,
including the empty initial one), two consecutive `get_pdf_regions` runs —
the second reusing the cache the first left behind — return identical region
handles (same ids, order and bboxes), and both equal a fresh recomputation,
so re-running detection on an already-indexed document does not change
existing ids. -/
theorem claim_C9 (env : Env) (cache : PageCache) (pdf_url : String)
    (h : coherent env cache) :
    (get_pdf_regions_c env cache pdf_url).1 =
      (get_pdf_regions_c env (get_pdf_regions_c env cache pdf_url).2 pdf_url).1 ∧
    (get_pdf_regions_c env cache pdf_url).1 = get_pdf_regions env pdf_url := by
  obtain ⟨h1, h2⟩ := regionsC env cache pdf_url h
  obtain ⟨h3, -⟩ := regionsC env (get_pdf_regions_c env cache pdf_url).2 pdf_url h2
  exact ⟨by rw [h1, h3], h1⟩

/-- Witness for C9: two runs over the `envC2` document starting from the
empty cache. -/
theorem claim_C9_witness :
    (get_pdf_regions_c envC2 [] "http://d").1 =
      (get_pdf_regions_c envC2 (get_pdf_regions_c envC2 [] "http://d").2 "http://d").1 ∧
    (get_pdf_regions_c envC2 [] "http://d").1 = get_pdf_regions envC2 "http://d" :=
  claim_C9 envC2 [] "http://d" (fun _ _ h => nomatch h)

/-- Claim C10: `resolve_pdf_path` is idempotent, so the double resolution on
several call paths (once in the endpoint, again inside `get_pdf_regions` /
`get_pdf_page_regions`) never changes which location is accessed. -/
theorem claim_C10 (s : String) :
    resolve_pdf_path (resolve_pdf_path s) = resolve_pdf_path s :=
  resolve_idem s

end Backend
